import Mathlib

/-!
Verification development for the BCSD (Bias Correction and Statistical
Downscaling) core in `xsd/bcsd.py` of scikit-downscale.

The pipeline is embedded shallowly:

* array values are modelled by `Fp`, exact rationals extended with the
  IEEE-754 special values `inf`, `ninf` (negative infinity) and `nan`, with
  the numpy arithmetic on those specials (no rounding is modelled: finite
  arithmetic is exact, which is the reading the specification itself takes
  for its algebraic statements);
* a `GriddedSeries` is a time-indexed gridded field: the calendar month of
  each time step (in time order), cell-center latitude / longitude
  coordinate arrays, optional boundary-coordinate arrays (`lat_b` /
  `lon_b`, absent until the grid harmonizer attaches them), and a value per
  (time index, flattened spatial cell);
* Python exceptions are values of `PyErr`; fallible code returns `Except`.
  The constructors `gridGeometryError`, `gridIncompatibleError`,
  `alignmentError` and `variableClassError` model the specification's error
  taxonomy; no code in `bcsd.py` defines or raises any of them, they are
  present only so that statements about them can be made.
* the two external collaborators (the xESMF regridding operator and the
  group-wise quantile-mapping operator) are out of the core's scope and are
  taken as parameters (`RegridEngine`, `QmOp`).
-/

/-- Floating-point value model: exact rationals plus the IEEE special
values. `fin q` is a finite value, `inf`/`ninf` the two infinities, `nan`
not-a-number. Signed zero is not modelled; the zeros arising in this
development are numpy `+0.0`. -/
inductive Fp where
  | fin (q : ℚ)
  | inf
  | ninf
  | nan
  deriving DecidableEq

/-- Negation on `Fp` (IEEE negation: exact on finite values, swaps the
infinities, fixes `nan`). -/
def Fp.neg : Fp → Fp
  | .fin q => .fin (-q)
  | .inf => .ninf
  | .ninf => .inf
  | .nan => .nan

/-- Addition on `Fp` with the IEEE special-value rules: `nan` is absorbing,
`inf + ninf = nan`, and finite addition is exact. -/
def Fp.add : Fp → Fp → Fp
  | .nan, _ => .nan
  | _, .nan => .nan
  | .fin a, .fin b => .fin (a + b)
  | .fin _, .inf => .inf
  | .fin _, .ninf => .ninf
  | .inf, .fin _ => .inf
  | .ninf, .fin _ => .ninf
  | .inf, .inf => .inf
  | .ninf, .ninf => .ninf
  | .inf, .ninf => .nan
  | .ninf, .inf => .nan

/-- Subtraction on `Fp`; in IEEE arithmetic `a - b` is `a + (-b)` exactly. -/
def Fp.sub (a b : Fp) : Fp :=
  Fp.add a (Fp.neg b)

/-- Division on `Fp` with the numpy rules: division of a nonzero finite
value by (positive) zero gives a signed infinity, `0 / 0` gives `nan`, and
no exception is ever raised (numpy emits a warning and returns the special
value). -/
def Fp.div : Fp → Fp → Fp
  | .nan, _ => .nan
  | _, .nan => .nan
  | .fin a, .fin b =>
      if b = 0 then (if 0 < a then .inf else if a < 0 then .ninf else .nan)
      else .fin (a / b)
  | .fin _, .inf => .fin 0
  | .fin _, .ninf => .fin 0
  | .inf, .fin b => if b < 0 then .ninf else .inf
  | .ninf, .fin b => if b < 0 then .inf else .ninf
  | .inf, .inf => .nan
  | .inf, .ninf => .nan
  | .ninf, .inf => .nan
  | .ninf, .ninf => .nan

/-- Whether an `Fp` value is finite (neither an infinity nor `nan`). -/
def Fp.isFinite : Fp → Bool
  | .fin _ => true
  | _ => false

/-- The rational carried by a finite `Fp` value (`0` for the specials). -/
def Fp.toQ : Fp → ℚ
  | .fin q => q
  | _ => 0

/-- Python exception model. The first four constructors are Python built-in
exception classes as raised by numpy / xarray / the interpreter itself; the
last four are the specification's error taxonomy (`GridGeometryError`,
`GridIncompatibleError`, `AlignmentError`, `VariableClassError`), which no
code in `bcsd.py` defines or raises. -/
inductive PyErr where
  | valueError
  | typeError
  | indexError
  | attributeError
  | gridGeometryError
  | gridIncompatibleError
  | alignmentError
  | variableClassError
  deriving DecidableEq

/-- Projection of an `Except` result to its error, if any (used to state
decidable facts about results whose success type has function fields). -/
def errOf {α : Type} : Except PyErr α → Option PyErr
  | .error e => some e
  | .ok _ => none

/-- A gridded, time-indexed series (xarray `DataArray` as used by
`bcsd.py`): `months` lists the calendar month (`time.month`) of each time
step in time order, `lat`/`lon` are the cell-center coordinate arrays along
the two spatial axes, `latB`/`lonB` the optional cell-boundary coordinate
arrays (`lat_b`/`lon_b`, attached by `_make_source_grid`), and `vals t c`
the value at time index `t` and flattened spatial cell `c`. -/
structure GriddedSeries where
  months : List ℕ
  lat : List ℚ
  lon : List ℚ
  latB : Option (List ℚ)
  lonB : Option (List ℚ)
  vals : ℕ → ℕ → Fp

/-- A monthly climatology (result of `groupby('time.month').mean('time')`):
`months` is the sorted list of distinct calendar months present in the
source series, and `vals m c` the mean for calendar month `m` at cell `c`
(numpy's mean of an empty selection is `nan`, which the total `vals`
reproduces for absent months). -/
structure Climatology where
  months : List ℕ
  vals : ℕ → ℕ → Fp

/-- Latitude/longitude bounds of an object, as computed by `get_bounds`. -/
structure Bounds where
  latMin : ℚ
  latMax : ℚ
  lonMin : ℚ
  lonMax : ℚ

/-- Destination-grid argument of a regridding call: either the uniform
2-d grid built by `xe.util.grid_2d(lon0, lon1, dlon, lat0, lat1, dlat)`
(step 1 of the orchestrator) or a gridded series whose grid is the target
(step 5 regrids back onto `da_obs` itself). -/
inductive Dest where
  | grid2d (lon0 lon1 dlon lat0 lat1 dlat : ℚ)
  | series (s : GriddedSeries)

/-- The `method` argument actually received by `_regrid_to`. Python binds
positionally: at the orchestrator's first call site the second positional
argument is the observed `DataArray`, not a method string, so the argument
may be either a string or a gridded series. -/
inductive MethodArg where
  | str (s : String)
  | dataArray (d : GriddedSeries)

/-- Modelled from the spec: the external regridding operator
(`xe.Regridder`). `build src dest method` yields the operator for the
`(source grid, destination grid, method)` triple, as a function applied to
a series on the source grid. Its internals are out of scope; theorems
quantify over every engine. -/
structure RegridEngine where
  build : GriddedSeries → Dest → String → GriddedSeries → GriddedSeries

/-- Modelled from the spec: the external group-wise quantile-mapping
operator `quantile_mapping_by_group(predict, train, obs, grouper)` with the
calendar-month grouper, producing a corrected version of its first
argument. Its internals are out of scope; theorems quantify over every
operator. -/
def QmOp : Type :=
  GriddedSeries → GriddedSeries → GriddedSeries → GriddedSeries

/-- Embedding of `get_bounds` (`bcsd.py` lines 45-48): the min and max of
the latitude and longitude coordinate arrays. numpy's `min`/`max` of an
empty array raises `ValueError`. -/
def getBounds (obj : GriddedSeries) : Except PyErr Bounds :=
  match obj.lat, obj.lon with
  | a :: ta, b :: tb =>
      .ok ⟨ta.foldl min a, ta.foldl max a, tb.foldl min b, tb.foldl max b⟩
  | _, _ => .error .valueError

/-- Embedding of `_make_source_grid` (`bcsd.py` lines 51-66). The per-axis
step is `np.diff(values[:2])[0]`, i.e. the difference of the first two
cell centers; with fewer than two entries the slice's diff is empty and
indexing it raises `IndexError`. The boundary arrays are
`np.append(values - step/2, values[-1] + step/2)` (note `values[-1]` is the
entry at index `length - 1`). The function attaches `lon_b`/`lat_b` to the
input object in place and returns that same object; here the returned
record is the post-state of the input. -/
def makeSourceGrid (obj : GriddedSeries) : Except PyErr GriddedSeries :=
  match obj.lon, obj.lat with
  | b0 :: b1 :: _, a0 :: a1 :: _ =>
      let lonStep : ℚ := b1 - b0
      let latStep : ℚ := a1 - a0
      .ok { obj with
              lonB := some (obj.lon.map (fun q => q - lonStep / 2) ++
                        [obj.lon.getD (obj.lon.length - 1) 0 + lonStep / 2]),
              latB := some (obj.lat.map (fun q => q - latStep / 2) ++
                        [obj.lat.getD (obj.lat.length - 1) 0 + latStep / 2]) }
  | _, _ => .error .indexError

/-- Construction of the external regridding operator, `xe.Regridder(obj,
dest, method)`. The operator's contract takes a method identifier (a
string); passing a `DataArray` in the method position — which the
orchestrator's first call site does — is a contract violation that fails
inside the external library with a Python-level error, modelled as
`TypeError`. -/
def buildRegridder (engine : RegridEngine) (src : GriddedSeries) (dest : Dest) :
    MethodArg → Except PyErr (GriddedSeries → GriddedSeries)
  | .str s => .ok (engine.build src dest s)
  | .dataArray _ => .error .typeError

/-- Embedding of `_regrid_to` (`bcsd.py` lines 74-83): for each object in
turn, attach grid boundary metadata, construct a fresh regridding operator
for that source, and apply it to the (harmonized) object; the outputs are
collected in order. The first failure aborts the loop. -/
def regridTo (engine : RegridEngine) (dest : Dest) (method : MethodArg) :
    List GriddedSeries → Except PyErr (List GriddedSeries)
  | [] => .ok []
  | o :: rest =>
    match makeSourceGrid o with
    | .error e => .error e
    | .ok og =>
      match buildRegridder engine og dest method with
      | .error e => .error e
      | .ok r =>
        match regridTo engine dest method rest with
        | .error e => .error e
        | .ok rs => .ok (r og :: rs)

/-- Time indices of `s` whose calendar month is `m`, in time order (the
member positions of the `groupby('time.month')` group for `m`). -/
def monthIndices (s : GriddedSeries) (m : ℕ) : List ℕ :=
  (List.range s.months.length).filter (fun t => s.months.getD t 0 = m)

/-- Sum of a list of `Fp` values. -/
def fpSum (l : List Fp) : Fp :=
  l.foldr Fp.add (.fin 0)

/-- Mean of a list of `Fp` values (sum divided by length; numpy's mean of
an empty list is `0 / 0 = nan`). -/
def fpMean (l : List Fp) : Fp :=
  Fp.div (fpSum l) (.fin l.length)

/-- The sorted distinct calendar months of a series (xarray's groupby
orders its groups by sorted key). -/
def sortedMonths (s : GriddedSeries) : List ℕ :=
  List.insertionSort (fun a b => a ≤ b) s.months.dedup

/-- Embedding of `groupby('time.month').mean(dim='time')` (`bcsd.py` lines
115-116): the time axis is discarded in favour of a month axis holding the
sorted distinct months present, and the value for month `m` at a cell is
the arithmetic mean of the values at the time steps falling in month `m`. -/
def monthlyClimatology (s : GriddedSeries) : Climatology :=
  { months := sortedMonths s,
    vals := fun m c => fpMean ((monthIndices s m).map (fun t => s.vals t c)) }

/-- The positions (within a month group `G` of size `n`) covered by the
centered window of length 9 at position `p`: positions `j` with
`p - 4 ≤ j ≤ p + 4`, clipped to the group (with `min_periods=1` the window
is whatever subset of those positions exists). The lower clip is expressed
as `p ≤ j + 4` to stay in `ℕ`. -/
def windowPositions (n p : ℕ) : List ℕ :=
  (List.range n).filter (fun j => p ≤ j + 4 && j ≤ p + 4)

/-- Embedding of the month-grouped rolling mean (`bcsd.py` lines 132-134):
`groupby('time.month').apply(_running_mean, time=9, center=True,
min_periods=1)`, i.e. within each calendar-month group (the occurrences of
one month across years, in time order) a centered rolling mean of window 9
with `min_periods=1`. Subsequent xarray arithmetic aligns by time label, so
the result is modelled at the original time positions. -/
def rollingMeanByMonth (s : GriddedSeries) : GriddedSeries :=
  { s with vals := fun t c =>
      let G := monthIndices s (s.months.getD t 0)
      let p := G.indexOf t
      fpMean (((windowPositions G.length p).map (fun j => G.getD j 0)).map
        (fun u => s.vals u c)) }

/-- Pointwise addition of two series (xarray `+`, time labels aligned). -/
def addSeries (a b : GriddedSeries) : GriddedSeries :=
  { a with vals := fun t c => Fp.add (a.vals t c) (b.vals t c) }

/-- Pointwise subtraction of two series (xarray `-`, time labels aligned). -/
def subSeries (a b : GriddedSeries) : GriddedSeries :=
  { a with vals := fun t c => Fp.sub (a.vals t c) (b.vals t c) }

/-- Embedding of `qm.groupby('time.month') / climatology` (`bcsd.py` lines
127-128): each time step is divided by the climatology entry of its own
calendar month (month-of-year alignment). -/
def ratioByMonth (s : GriddedSeries) (clim : Climatology) : GriddedSeries :=
  { s with vals := fun t c =>
      Fp.div (s.vals t c) (clim.vals (s.months.getD t 0) c) }

/-- Embedding of the post-regrid body of `bcsd` (`bcsd.py` lines 114-152),
as a function of the three regridded inputs: the training climatology, then
the branch on the variable class. The precipitation branch quantile-maps
`predict` (with `train` and `obs` as second and third arguments) and takes
the month-aligned ratio against the training climatology; every other class
takes the temperature-like branch: month-grouped 9-window rolling mean of
`predict`, the (unused, line 137) de-trended anomaly, quantile mapping, and
the difference `qm - (rolling_mean + qm)`. -/
def bcsdBranch (qm : QmOp) (obsR trainR predictR : GriddedSeries) (v : String) :
    GriddedSeries :=
  let trainMean := monthlyClimatology trainR
  if v = "pr" then
    let qmS := qm predictR trainR obsR
    ratioByMonth qmS trainMean
  else
    let rollingMean := rollingMeanByMonth predictR
    let _predictAnoms := subSeries predictR rollingMean
    let qmS := qm predictR trainR obsR
    let qmMean := addSeries rollingMean qmS
    subSeries qmS qmMean

/-- Embedding of the orchestrator `bcsd` (`bcsd.py` lines 86-159).

Line 110 builds the 1-degree analysis grid from the observed bounds. Lines
111-112 call `_regrid_to(course_grid, da_obs, da_train, da_predict)`
against the signature `_regrid_to(dest, method='bilinear', *objs)`: Python
binds `da_obs` to `method` and only `(da_train, da_predict)` to `objs`, so
the method argument is a `DataArray` and the result has two entries; the
assignment then unpacks the result into three names, which for a list of
any other length raises `ValueError`. Lines 155-156 call
`_regrid_to(da_obs, da_predict_regrid_anoms, method='bilinear')`, which
passes `method` both positionally (as `da_predict_regrid_anoms`) and by
keyword: Python raises `TypeError` at the call itself, before the body
runs. -/
def bcsd (engine : RegridEngine) (qm : QmOp)
    (daObs daTrain daPredict : GriddedSeries) (v : String) :
    Except PyErr GriddedSeries :=
  match getBounds daObs with
  | .error e => .error e
  | .ok b =>
    let courseGrid := Dest.grid2d b.lonMin b.lonMax 1 b.latMin b.latMax 1
    match regridTo engine courseGrid (.dataArray daObs) [daTrain, daPredict] with
    | .error e => .error e
    | .ok regridded =>
      match regridded with
      | [obsR, trainR, predictR] =>
        let _anoms := bcsdBranch qm obsR trainR predictR v
        .error .typeError
      | _ => .error .valueError

/-- The recognized variable classes of the orchestrator's docstring. -/
def recognizedVars : List String :=
  ["pr", "tmin", "tmax", "trange", "tavg"]

/-! Concrete objects used by witnesses and counterexamples: a regular
2-by-2 one-step grid with a single January time step, and trivial
instantiations of the two external operators. -/

/-- A concrete observed series on the regular grid `lat = lon = [0, 1]`
with one January time step, all values `1`. -/
def obsW : GriddedSeries :=
  { months := [1], lat := [0, 1], lon := [0, 1],
    latB := none, lonB := none, vals := fun _ _ => .fin 1 }

/-- A concrete training series: same grid and time axis, all values `0`
(so its monthly climatology is `0` everywhere). -/
def trW : GriddedSeries :=
  { obsW with vals := fun _ _ => .fin 0 }

/-- A concrete predicted series: same grid and time axis, all values `5`. -/
def pdW : GriddedSeries :=
  { obsW with vals := fun _ _ => .fin 5 }

/-- A concrete series spanning a full year of monthly steps, all values
`1`, on the same grid. -/
def yearW : GriddedSeries :=
  { obsW with months := [1, 2, 3, 4, 5, 6, 7, 8, 9, 10, 11, 12] }

/-- A degenerate series whose axes hold a single point, so that no grid
step can be derived from the first two coordinate values. -/
def singleW : GriddedSeries :=
  { obsW with lat := [0], lon := [0] }

/-- A concrete instantiation of the external quantile-mapping operator
(identity on the series to correct). -/
def qmW : QmOp :=
  fun p _ _ => p

/-- A concrete instantiation of the external regridding engine (each
operator returns its input unchanged). -/
def engineW : RegridEngine :=
  ⟨fun _ _ _ g => g⟩

/-- A concrete destination grid. -/
def destW : Dest :=
  .grid2d 0 1 1 0 1 1

/-- The post-state of `obsW` after harmonization: boundary coordinates
attached, everything else unchanged. -/
def obsWg : GriddedSeries :=
  { obsW with latB := some [-(1 / 2), 1 / 2, 3 / 2],
              lonB := some [-(1 / 2), 1 / 2, 3 / 2] }

/-! Basic lemmas about the value model. -/

/-- An `Fp` value is finite exactly when it is `fin` of some rational. -/
theorem Fp.isFinite_iff (x : Fp) : x.isFinite = true ↔ ∃ q, x = .fin q := by
  cases x <;> simp [Fp.isFinite]

/-- Adding two finite values is exact finite addition. -/
theorem Fp.add_fin (a b : ℚ) : Fp.add (.fin a) (.fin b) = .fin (a + b) :=
  rfl

/-- Dividing any value by (positive) zero never yields a finite value:
numpy returns an infinity or `nan` and raises no exception. -/
theorem Fp.div_fin_zero_not_finite (x : Fp) :
    (Fp.div x (.fin 0)).isFinite = false := by
  cases x with
  | fin a =>
      by_cases h : 0 < a
      · simp [Fp.div, Fp.isFinite, h]
      · by_cases h2 : a < 0 <;> simp [Fp.div, Fp.isFinite, h, h2]
  | inf => simp [Fp.div, Fp.isFinite]
  | ninf => simp [Fp.div, Fp.isFinite]
  | nan => simp [Fp.div, Fp.isFinite]

/-- The sum of a list of finite values is the finite sum of the carried
rationals. -/
theorem fpSum_fin (l : List Fp) (h : ∀ x ∈ l, ∃ q, x = .fin q) :
    fpSum l = .fin ((l.map Fp.toQ).sum) := by
  induction l with
  | nil => rfl
  | cons a t ih =>
      obtain ⟨q, rfl⟩ := h a (by simp)
      have ht : fpSum t = .fin ((t.map Fp.toQ).sum) :=
        ih (fun x hx => h x (List.mem_cons_of_mem _ hx))
      simp only [fpSum, List.foldr_cons, List.map_cons, List.sum_cons]
      simpa [fpSum, Fp.add, Fp.toQ] using congrArg (Fp.add (.fin q)) ht

/-- The mean of a nonempty list of finite values is the finite arithmetic
mean of the carried rationals. -/
theorem fpMean_fin (l : List Fp) (hne : l ≠ [])
    (h : ∀ x ∈ l, ∃ q, x = .fin q) :
    fpMean l = .fin ((l.map Fp.toQ).sum / (l.length : ℚ)) := by
  have hlen : (l.length : ℚ) ≠ 0 :=
    Nat.cast_ne_zero.mpr (List.length_pos.mpr hne).ne'
  rw [fpMean, fpSum_fin l h]
  simp [Fp.div, hlen]

/-! Lemmas locating the failure points of the orchestrator. -/

/-- Every failure of the grid harmonizer is an `IndexError` (indexing the
empty diff of a short coordinate slice); no `GridGeometryError` exists. -/
theorem makeSourceGrid_error (obj : GriddedSeries) (e : PyErr)
    (h : makeSourceGrid obj = .error e) : e = .indexError := by
  unfold makeSourceGrid at h
  rcases hlon : obj.lon with _ | ⟨b0, _ | ⟨b1, tb⟩⟩ <;>
    rcases hlat : obj.lat with _ | ⟨a0, _ | ⟨a1, ta⟩⟩ <;>
      simp [hlon, hlat] at h <;> exact h.symm

/-- Every failure of `get_bounds` is a `ValueError` (numpy min/max of an
empty coordinate array). -/
theorem getBounds_error (obj : GriddedSeries) (e : PyErr)
    (h : getBounds obj = .error e) : e = .valueError := by
  unfold getBounds at h
  rcases hlat : obj.lat with _ | ⟨a, ta⟩ <;>
    rcases hlon : obj.lon with _ | ⟨b, tb⟩ <;>
      simp [hlat, hlon] at h <;> exact h.symm

/-- With a `DataArray` in the method position (as at the orchestrator's
first call site) and a nonempty batch, `_regrid_to` always fails, either in
the harmonizer (`IndexError`) or at the external operator construction
(`TypeError`). -/
theorem regridTo_dataArray_error (engine : RegridEngine) (dest : Dest)
    (d : GriddedSeries) (o : GriddedSeries) (rest : List GriddedSeries) :
    ∃ e, regridTo engine dest (.dataArray d) (o :: rest) = .error e ∧
      (e = .indexError ∨ e = .typeError) := by
  unfold regridTo
  cases hmk : makeSourceGrid o with
  | error e =>
      exact ⟨e, by simp [hmk], Or.inl (makeSourceGrid_error o e hmk)⟩
  | ok og =>
      exact ⟨.typeError, by simp [hmk, buildRegridder], Or.inr rfl⟩

/-- The orchestrator fails on every input, with a generic Python error:
either `get_bounds` fails on an empty axis (`ValueError`), or the first
regrid call fails because the observed array was bound to the `method`
parameter (`IndexError`/`TypeError`); had it produced its two outputs, the
three-way unpacking would raise `ValueError`, and the final regrid call
would raise `TypeError` for passing `method` twice. -/
theorem bcsd_run (engine : RegridEngine) (qm : QmOp)
    (daObs daTrain daPredict : GriddedSeries) (v : String) :
    ∃ e, bcsd engine qm daObs daTrain daPredict v = .error e ∧
      (e = .valueError ∨ e = .indexError ∨ e = .typeError) := by
  unfold bcsd
  cases hb : getBounds daObs with
  | error e =>
      exact ⟨e, by simp, Or.inl (getBounds_error daObs e hb)⟩
  | ok b =>
      obtain ⟨e, he, hor⟩ :=
        regridTo_dataArray_error engine
          (Dest.grid2d b.lonMin b.lonMax 1 b.latMin b.latMax 1)
          daObs daTrain [daPredict]
      refine ⟨e, by simp [he], ?_⟩
      rcases hor with h | h
      · exact Or.inr (Or.inl h)
      · exact Or.inr (Or.inr h)

/-! Lemmas about month groups and the rolling window. -/

/-- Membership in a month group: the time indices in range whose calendar
month matches. -/
theorem mem_monthIndices {s : GriddedSeries} {m u : ℕ} :
    u ∈ monthIndices s m ↔ u < s.months.length ∧ s.months.getD u 0 = m := by
  simp [monthIndices, List.mem_filter, List.mem_range]

/-- Every time index belongs to the month group of its own month. -/
theorem self_mem_monthIndices {s : GriddedSeries} {t : ℕ}
    (ht : t < s.months.length) : t ∈ monthIndices s (s.months.getD t 0) :=
  mem_monthIndices.mpr ⟨ht, rfl⟩

/-- A position inside the group is inside its own centered window (this is
what `min_periods=1` guarantees: the window at a point is never empty). -/
theorem windowPositions_self_mem (n p : ℕ) (h : p < n) :
    p ∈ windowPositions n p := by
  simp [windowPositions, List.mem_filter, List.mem_range, h]

/-- Window positions lie inside the group. -/
theorem windowPositions_lt {n p j : ℕ} (h : j ∈ windowPositions n p) :
    j < n :=
  List.mem_range.mp (List.mem_filter.mp h).1

/-- On a time index in range whose series values are finite (at a given
cell), the month-grouped rolling mean is finite: its window is nonempty and
consists of in-range time indices. -/
theorem rollingMean_fin (s : GriddedSeries) (t c : ℕ)
    (ht : t < s.months.length)
    (hfin : ∀ u, u < s.months.length → ∃ q, s.vals u c = .fin q) :
    ∃ q, (rollingMeanByMonth s).vals t c = .fin q := by
  have htG : t ∈ monthIndices s (s.months.getD t 0) := self_mem_monthIndices ht
  set G := monthIndices s (s.months.getD t 0) with hG
  have hp : G.indexOf t < G.length := List.indexOf_lt_length.mpr htG
  have hwne : windowPositions G.length (G.indexOf t) ≠ [] :=
    List.ne_nil_of_mem (windowPositions_self_mem _ _ hp)
  have hne : (((windowPositions G.length (G.indexOf t)).map
      (fun j => G.getD j 0)).map (fun u => s.vals u c)) ≠ [] := by
    simp [hwne]
  have hall : ∀ x ∈ (((windowPositions G.length (G.indexOf t)).map
      (fun j => G.getD j 0)).map (fun u => s.vals u c)), ∃ q, x = .fin q := by
    intro x hx
    simp only [List.mem_map] at hx
    obtain ⟨u, ⟨j, hj, rfl⟩, rfl⟩ := hx
    have hjlt : j < G.length := windowPositions_lt hj
    have hmem : G.getD j 0 ∈ G := by
      rw [List.getD_eq_getElem G 0 hjlt]
      exact List.getElem_mem hjlt
    exact hfin _ (mem_monthIndices.mp (hG ▸ hmem)).1
  exact ⟨_, by
    show fpMean _ = _
    exact fpMean_fin _ hne hall⟩

/-! List indexing helpers for the boundary arrays. -/

/-- Indexing an append below the left part's length reads the left part. -/
theorem getD_append_lt (l1 l2 : List ℚ) (i : ℕ) (h : i < l1.length) :
    (l1 ++ l2).getD i 0 = l1.getD i 0 := by
  rw [List.getD_eq_getElem _ 0 (by simp; omega), List.getD_eq_getElem _ 0 h]
  exact List.getElem_append_left h

/-- Indexing an appended singleton at the left part's length reads it. -/
theorem getD_append_self_length (l1 : List ℚ) (x : ℚ) :
    (l1 ++ [x]).getD l1.length 0 = x := by
  rw [List.getD_eq_getElem _ 0 (by simp)]
  rw [List.getElem_append_right (by omega)]
  simp

/-- Indexing a shifted map below its length shifts the indexed entry. -/
theorem getD_map_shift (l : List ℚ) (d : ℚ) (i : ℕ) (h : i < l.length) :
    (l.map (fun q => q - d)).getD i 0 = l.getD i 0 - d := by
  rw [List.getD_eq_getElem _ 0 (by simp [h]), List.getD_eq_getElem _ 0 h]
  exact List.getElem_map _

/-- On axes with at least two entries the harmonizer succeeds, returning
the post-state of its input: the same object with the two boundary arrays
attached (each axis shifted by half the first-two-centers step, plus one
trailing boundary past the last center). -/
theorem makeSourceGrid_ok (obj : GriddedSeries)
    (hlon : 2 ≤ obj.lon.length) (hlat : 2 ≤ obj.lat.length) :
    makeSourceGrid obj = .ok { obj with
      lonB := some (obj.lon.map
          (fun q => q - (obj.lon.getD 1 0 - obj.lon.getD 0 0) / 2) ++
        [obj.lon.getD (obj.lon.length - 1) 0 +
          (obj.lon.getD 1 0 - obj.lon.getD 0 0) / 2]),
      latB := some (obj.lat.map
          (fun q => q - (obj.lat.getD 1 0 - obj.lat.getD 0 0) / 2) ++
        [obj.lat.getD (obj.lat.length - 1) 0 +
          (obj.lat.getD 1 0 - obj.lat.getD 0 0) / 2]) } := by
  rcases hl : obj.lon with _ | ⟨b0, _ | ⟨b1, tb⟩⟩ <;>
    rcases ha : obj.lat with _ | ⟨a0, _ | ⟨a1, ta⟩⟩ <;>
      simp [makeSourceGrid, hl, ha] at hlon hlat ⊢

/-- Indexing a mapped-then-appended singleton at the original list's
length reads the appended element. -/
theorem getD_append_singleton_at_length (l : List ℚ) (f : ℚ → ℚ) (x : ℚ) :
    (l.map f ++ [x]).getD l.length 0 = x := by
  have h : (l.map f).length = l.length := by simp
  rw [← h]
  exact getD_append_self_length _ _

/-! The claims. -/

/-- C1: refuted (code bug). The claim says the orchestrator completes
step 5 — regridding the analysis-grid anomaly field back onto the observed
grid — and either returns a complete anomaly field or raises one of the
specified errors. In the code `bcsd` fails on every input — for every
behavior of the external operators — with a generic Python error that is
not in the specification's taxonomy, because
`_regrid_to(course_grid, da_obs, da_train, da_predict)` binds `da_obs` to
the `method` parameter of `_regrid_to(dest, method='bilinear', *objs)`;
the regrid-back call would likewise raise `TypeError` for passing `method`
positionally and by keyword. -/
theorem bcsd_orchestrator_never_completes (engine : RegridEngine) (qm : QmOp)
    (daObs daTrain daPredict : GriddedSeries) (v : String) :
    ∃ e, bcsd engine qm daObs daTrain daPredict v = .error e ∧
      e ≠ .gridGeometryError ∧ e ≠ .gridIncompatibleError ∧
      e ≠ .alignmentError ∧ e ≠ .variableClassError := by
  obtain ⟨e, he, hor⟩ := bcsd_run engine qm daObs daTrain daPredict v
  refine ⟨e, he, ?_, ?_, ?_, ?_⟩ <;>
    rcases hor with h | h | h <;> subst h <;> simp

/-- C2 counterexample: at a fully concrete input with the unrecognized
variable class "humidity", the orchestrator raises `TypeError` (from the
misbound method argument at the first regrid call), not the claimed
`VariableClassError`. -/
theorem bcsd_unrecognized_class_cex :
    errOf (bcsd engineW qmW obsW trW pdW "humidity") = some .typeError ∧
    PyErr.typeError ≠ PyErr.variableClassError :=
  ⟨rfl, by decide⟩

/-- C2: corrected. The code contains no class validation and no
`VariableClassError`: no run of the orchestrator ever raises it, and for a
variable class outside the recognized set the branch dispatch simply takes
the temperature-like `else` path (the same path as tmin/tmax/trange/tavg). -/
theorem bcsd_unrecognized_class (engine : RegridEngine) (qm : QmOp)
    (o tr pd : GriddedSeries) (v : String) (hv : v ∉ recognizedVars) :
    (∀ e, bcsd engine qm o tr pd v = .error e → e ≠ .variableClassError) ∧
    ∀ o2 tr2 pd2, bcsdBranch qm o2 tr2 pd2 v =
      subSeries (qm pd2 tr2 o2)
        (addSeries (rollingMeanByMonth pd2) (qm pd2 tr2 o2)) := by
  constructor
  · intro e he
    obtain ⟨e2, he2, hor⟩ := bcsd_run engine qm o tr pd v
    rw [he] at he2
    obtain rfl := (Except.error.inj he2).symm
    rcases hor with h | h | h <;> subst h <;> simp
  · intro o2 tr2 pd2
    have hpr : v ≠ "pr" := by
      intro h
      exact hv (h ▸ (by simp [recognizedVars]))
    simp [bcsdBranch, hpr]

/-- C2 witness: the corrected statement at the concrete unrecognized class
"humidity" and concrete series. -/
theorem bcsd_unrecognized_class_witness :
    ("humidity" ∉ recognizedVars) ∧
    bcsdBranch qmW obsW trW pdW "humidity" =
      subSeries (qmW pdW trW obsW)
        (addSeries (rollingMeanByMonth pdW) (qmW pdW trW obsW)) :=
  ⟨by decide,
    (bcsd_unrecognized_class engineW qmW obsW trW pdW "humidity"
      (by decide)).2 obsW trW pdW⟩

/-- C3: confirmed. On the temperature-like branch the computed anomaly
`qm - (rolling_mean + qm)` collapses pointwise (at finite values; the
arithmetic is exact there) to the negation of the 9-window,
calendar-month-grouped, centered, `min_periods=1` rolling mean of the
regridded predicted series: the quantile-mapped correction cancels out. -/
theorem temp_branch_negated_rolling_mean (qm : QmOp)
    (o tr pd : GriddedSeries) (v : String)
    (hv : v ∈ ["tmin", "tmax", "trange", "tavg"])
    (t c : ℕ) (ht : t < pd.months.length)
    (hfin : ∀ u, u < pd.months.length → (pd.vals u c).isFinite = true)
    (hqm : ((qm pd tr o).vals t c).isFinite = true) :
    (bcsdBranch qm o tr pd v).vals t c =
      Fp.neg ((rollingMeanByMonth pd).vals t c) := by
  have hpr : v ≠ "pr" := by
    intro h
    subst h
    simp at hv
  obtain ⟨b, hb⟩ := rollingMean_fin pd t c ht
    (fun u hu => (Fp.isFinite_iff _).mp (hfin u hu))
  obtain ⟨a, ha⟩ := (Fp.isFinite_iff _).mp hqm
  simp only [bcsdBranch, if_neg hpr, subSeries, addSeries]
  rw [ha, hb]
  show Fp.add (.fin a) (Fp.neg (Fp.add (.fin b) (.fin a))) = Fp.neg (.fin b)
  simp only [Fp.add, Fp.neg, Fp.fin.injEq]
  ring

/-- C3 witness: the collapse at a concrete one-step January series with
the identity quantile-mapping operator and class tmin. -/
theorem temp_branch_negated_rolling_mean_witness :
    ("tmin" ∈ ["tmin", "tmax", "trange", "tavg"]) ∧ (0 < pdW.months.length) ∧
    (∀ u, u < pdW.months.length → (pdW.vals u 0).isFinite = true) ∧
    (((qmW pdW trW obsW).vals 0 0).isFinite = true) ∧
    (bcsdBranch qmW obsW trW pdW "tmin").vals 0 0 =
      Fp.neg ((rollingMeanByMonth pdW).vals 0 0) :=
  ⟨by decide, by decide, by decide, by decide,
    temp_branch_negated_rolling_mean qmW obsW trW pdW "tmin" (by decide) 0 0
      (by decide) (by decide) (by decide)⟩

/-- C4: confirmed. For each axis with at least two cell centers and
uniform step, the derived boundary array has one entry more than the
centers, each boundary is the matching center minus half the step, and the
final boundary is the last center plus half the step — independently for
latitude and longitude. -/
theorem harmonizer_boundary_arrays (obj g : GriddedSeries) (sLat sLon : ℚ)
    (hlat2 : 2 ≤ obj.lat.length) (hlon2 : 2 ≤ obj.lon.length)
    (hulat : ∀ i, i < obj.lat.length - 1 →
      obj.lat.getD (i + 1) 0 - obj.lat.getD i 0 = sLat)
    (hulon : ∀ i, i < obj.lon.length - 1 →
      obj.lon.getD (i + 1) 0 - obj.lon.getD i 0 = sLon)
    (hok : makeSourceGrid obj = .ok g) :
    (∃ bl, g.latB = some bl ∧ bl.length = obj.lat.length + 1 ∧
      (∀ i, i < obj.lat.length → bl.getD i 0 = obj.lat.getD i 0 - sLat / 2) ∧
      bl.getD obj.lat.length 0 =
        obj.lat.getD (obj.lat.length - 1) 0 + sLat / 2) ∧
    (∃ bl, g.lonB = some bl ∧ bl.length = obj.lon.length + 1 ∧
      (∀ i, i < obj.lon.length → bl.getD i 0 = obj.lon.getD i 0 - sLon / 2) ∧
      bl.getD obj.lon.length 0 =
        obj.lon.getD (obj.lon.length - 1) 0 + sLon / 2) := by
  have hstepLat : obj.lat.getD 1 0 - obj.lat.getD 0 0 = sLat := by
    simpa using hulat 0 (by omega)
  have hstepLon : obj.lon.getD 1 0 - obj.lon.getD 0 0 = sLon := by
    simpa using hulon 0 (by omega)
  rw [makeSourceGrid_ok obj hlon2 hlat2] at hok
  obtain rfl := (Except.ok.inj hok).symm
  rw [hstepLat, hstepLon]
  constructor
  · refine ⟨_, rfl, by simp, ?_, ?_⟩
    · intro i hi
      rw [getD_append_lt _ _ i (by simpa using hi), getD_map_shift _ _ i hi]
    · exact getD_append_singleton_at_length _ _ _
  · refine ⟨_, rfl, by simp, ?_, ?_⟩
    · intro i hi
      rw [getD_append_lt _ _ i (by simpa using hi), getD_map_shift _ _ i hi]
    · exact getD_append_singleton_at_length _ _ _

/-- Harmonizing the concrete series `obsW` yields exactly the post-state
`obsWg`. -/
theorem makeSourceGrid_obsW : makeSourceGrid obsW = .ok obsWg := by
  rw [makeSourceGrid_ok obsW (by decide) (by decide)]
  simp only [obsWg]
  norm_num [obsW]

/-- C4 witness: the boundary facts at the concrete regular grid
`lat = lon = [0, 1]` (step 1, post-state `obsWg`). -/
theorem harmonizer_boundary_arrays_witness :
    (2 ≤ obsW.lat.length) ∧
    (∃ bl, obsWg.latB = some bl ∧ bl.length = obsW.lat.length + 1 ∧
      (∀ i, i < obsW.lat.length →
        bl.getD i 0 = obsW.lat.getD i 0 - (1 : ℚ) / 2) ∧
      bl.getD obsW.lat.length 0 =
        obsW.lat.getD (obsW.lat.length - 1) 0 + (1 : ℚ) / 2) :=
  ⟨by decide,
    (harmonizer_boundary_arrays obsW obsWg 1 1 (by decide) (by decide)
      (by intro i hi; simp [obsW, Nat.lt_one_iff] at hi; subst hi;
          norm_num [obsW])
      (by intro i hi; simp [obsW, Nat.lt_one_iff] at hi; subst hi;
          norm_num [obsW])
      makeSourceGrid_obsW).1⟩

/-- C5 counterexample: the concrete input `obsW` carries no boundary
metadata, yet after the Grid Harmonizer call its post-state carries
`lon_b` — the input object is mutated in place, not left unchanged. -/
theorem harmonizer_mutates_cex :
    obsW.lonB = none ∧
    Except.map (fun r => r.lonB) (makeSourceGrid obsW) =
      .ok (some [-(1 / 2), 1 / 2, 3 / 2]) ∧
    (some [-(1 / 2), (1 : ℚ) / 2, 3 / 2] ≠ (none : Option (List ℚ))) := by
  refine ⟨rfl, ?_, by simp⟩
  rw [makeSourceGrid_obsW]
  rfl

/-- C5: corrected. The Grid Harmonizer (and hence the Regrid Stage, which
runs it on every source) attaches the boundary coordinates to its input
object in place and returns that same object: the data, time axis and
center coordinates are preserved, but the post-state always carries
`lat_b`/`lon_b`, so an input lacking boundary metadata is not the same
object state after the call. -/
theorem harmonizer_post_state (obj g : GriddedSeries)
    (hok : makeSourceGrid obj = .ok g) :
    g.months = obj.months ∧ g.lat = obj.lat ∧ g.lon = obj.lon ∧
    g.vals = obj.vals ∧ (∃ bl, g.latB = some bl) ∧ (∃ bl, g.lonB = some bl) ∧
    (obj.lonB = none → g ≠ obj) := by
  unfold makeSourceGrid at hok
  rcases hl : obj.lon with _ | ⟨b0, _ | ⟨b1, tb⟩⟩ <;>
    rcases ha : obj.lat with _ | ⟨a0, _ | ⟨a1, ta⟩⟩ <;>
      simp [hl, ha] at hok
  obtain rfl := hok.symm
  refine ⟨rfl, rfl, rfl, rfl, ⟨_, rfl⟩, ⟨_, rfl⟩, ?_⟩
  intro hnone heq
  have := congrArg GriddedSeries.lonB heq
  simp [hnone] at this

/-- C5 witness: the corrected statement at the concrete series `obsW` and
its post-state `obsWg`. -/
theorem harmonizer_post_state_witness :
    obsWg.months = obsW.months ∧ obsWg.lat = obsW.lat ∧
    obsWg.lon = obsW.lon ∧ obsWg.vals = obsW.vals ∧
    (∃ bl, obsWg.latB = some bl) ∧ (∃ bl, obsWg.lonB = some bl) ∧
    (obsW.lonB = none → obsWg ≠ obsW) :=
  harmonizer_post_state obsW obsWg makeSourceGrid_obsW

/-- C6: confirmed. For variable class "pr" the branch applies the
group-wise quantile-mapping operator with `predicted` as the series to
correct, `training` as the correction-fitting source and `observed` as the
correction target (its first, second and third arguments), then forms the
anomaly as the pointwise ratio of the quantile-mapped series to the
training monthly climatology aligned by each time step's own calendar
month; every other recognized class takes the temperature-like path. -/
theorem bcsd_branch_selection (qm : QmOp) (o tr pd : GriddedSeries)
    (v : String) :
    bcsdBranch qm o tr pd "pr" =
      ratioByMonth (qm pd tr o) (monthlyClimatology tr) ∧
    (∀ i c, (bcsdBranch qm o tr pd "pr").vals i c =
      Fp.div ((qm pd tr o).vals i c)
        ((monthlyClimatology tr).vals ((qm pd tr o).months.getD i 0) c)) ∧
    (v ∈ ["tmin", "tmax", "trange", "tavg"] →
      bcsdBranch qm o tr pd v =
        subSeries (qm pd tr o)
          (addSeries (rollingMeanByMonth pd) (qm pd tr o))) := by
  refine ⟨by simp [bcsdBranch], ?_, ?_⟩
  · intro i c
    simp [bcsdBranch, ratioByMonth]
  · intro hv
    have hpr : v ≠ "pr" := by
      intro h
      subst h
      simp at hv
    simp [bcsdBranch, hpr]

/-- C6 witness: the branch selection at the concrete series, with the
recognized temperature-like class "tavg". -/
theorem bcsd_branch_selection_witness :
    ("tavg" ∈ ["tmin", "tmax", "trange", "tavg"]) ∧
    bcsdBranch qmW obsW trW pdW "tavg" =
      subSeries (qmW pdW trW obsW)
        (addSeries (rollingMeanByMonth pdW) (qmW pdW trW obsW)) :=
  ⟨by decide, (bcsd_branch_selection qmW obsW trW pdW "tavg").2.2 (by decide)⟩

/-- C7: confirmed. Over a series containing every calendar month (as any
series spanning a full year does, with months in 1..12), the monthly
climatology has exactly 12 entries on its month axis, every month 1..12 is
present, and (at cells whose values are all finite) the entry for month `m`
is the arithmetic mean of exactly the input values whose time step falls in
calendar month `m`; the time axis is replaced by the month axis. -/
theorem monthly_climatology_full_year (s : GriddedSeries)
    (hall : ∀ m ∈ Finset.Icc 1 12, m ∈ s.months)
    (hval : ∀ x ∈ s.months, x ∈ Finset.Icc 1 12) :
    (monthlyClimatology s).months.length = 12 ∧
    (∀ m ∈ Finset.Icc 1 12, m ∈ (monthlyClimatology s).months) ∧
    ∀ m c, m ∈ Finset.Icc 1 12 →
      (∀ i, i < s.months.length → (s.vals i c).isFinite = true) →
      (monthlyClimatology s).vals m c =
        .fin (((monthIndices s m).map (fun i => (s.vals i c).toQ)).sum /
          ((monthIndices s m).length : ℚ)) := by
  have hfs : s.months.toFinset = Finset.Icc 1 12 :=
    Finset.ext (fun x => ⟨fun hx => hval x (List.mem_toFinset.mp hx),
      fun hx => List.mem_toFinset.mpr (hall x hx)⟩)
  refine ⟨?_, ?_, ?_⟩
  · show (sortedMonths s).length = 12
    rw [sortedMonths, List.length_insertionSort, ← List.card_toFinset, hfs]
    simp [Nat.card_Icc]
  · intro m hm
    show m ∈ sortedMonths s
    exact ((List.perm_insertionSort _ _).mem_iff).mpr
      (List.mem_dedup.mpr (hall m hm))
  · intro m c hm hfin
    show fpMean ((monthIndices s m).map (fun t => s.vals t c)) = _
    obtain ⟨⟨i, hi⟩, hgi⟩ := List.mem_iff_get.mp (hall m hm)
    have himem : i ∈ monthIndices s m :=
      mem_monthIndices.mpr ⟨hi, by rw [List.getD_eq_getElem _ 0 hi]; exact hgi⟩
    have hne : (monthIndices s m).map (fun t => s.vals t c) ≠ [] := by
      simp [List.ne_nil_of_mem himem]
    have hfinall : ∀ x ∈ (monthIndices s m).map (fun t => s.vals t c),
        ∃ q, x = .fin q := by
      intro x hx
      obtain ⟨t, htmem, rfl⟩ := List.mem_map.mp hx
      exact (Fp.isFinite_iff _).mp (hfin t (mem_monthIndices.mp htmem).1)
    rw [fpMean_fin _ hne hfinall]
    simp only [List.map_map, List.length_map]
    rfl

/-- C7 witness: the climatology facts at a concrete series spanning one
full year of monthly steps. -/
theorem monthly_climatology_full_year_witness :
    (∀ m ∈ Finset.Icc 1 12, m ∈ yearW.months) ∧
    (monthlyClimatology yearW).months.length = 12 :=
  ⟨by decide,
    (monthly_climatology_full_year yearW (by decide) (by decide)).1⟩

/-- C8: confirmed. Whenever the batched regrid returns, it returns exactly
one output per input in the same order, and the i-th output is obtained by
running the i-th source through the Grid Harmonizer and then applying a
regridding operator freshly constructed for that source's harmonized grid,
the destination grid and the method — each output uses an operator built
from its own source, with no reuse across sources. -/
theorem regrid_batch_characterization (engine : RegridEngine) (dest : Dest)
    (m : String) (objs out : List GriddedSeries)
    (hok : regridTo engine dest (.str m) objs = .ok out) :
    out.length = objs.length ∧
    ∀ i (h1 : i < objs.length) (h2 : i < out.length),
      ∃ g, makeSourceGrid (objs.get ⟨i, h1⟩) = .ok g ∧
        out.get ⟨i, h2⟩ = engine.build g dest m g := by
  induction objs generalizing out with
  | nil =>
      simp only [regridTo] at hok
      obtain rfl := (Except.ok.inj hok)
      refine ⟨rfl, ?_⟩
      intro i h1 h2
      simp at h1
  | cons o rest ih =>
      unfold regridTo at hok
      cases hmk : makeSourceGrid o with
      | error e => simp [hmk] at hok
      | ok og =>
        simp only [hmk, buildRegridder] at hok
        cases hrec : regridTo engine dest (.str m) rest with
        | error e => simp [hrec] at hok
        | ok rs =>
          simp only [hrec] at hok
          obtain rfl := (Except.ok.inj hok).symm
          obtain ⟨hlen, hel⟩ := ih rs hrec
          refine ⟨by simp [hlen], ?_⟩
          intro i h1 h2
          cases i with
          | zero => exact ⟨og, hmk, rfl⟩
          | succ j =>
              obtain ⟨g, hg, hv⟩ := hel j (by simpa using h1) (by simpa using h2)
              exact ⟨g, hg, hv⟩

/-- C8 witness: a concrete successful batched regrid of one source, with
output characterized by the theorem. -/
theorem regrid_batch_characterization_witness :
    regridTo engineW destW (.str "bilinear") [obsW] = .ok [obsWg] ∧
    ([obsWg] : List GriddedSeries).length =
      ([obsW] : List GriddedSeries).length := by
  have h : regridTo engineW destW (.str "bilinear") [obsW] = .ok [obsWg] := by
    simp [regridTo, makeSourceGrid_obsW, buildRegridder, engineW]
  exact ⟨h,
    (regrid_batch_characterization engineW destW "bilinear" [obsW] [obsWg] h).1⟩

/-- C9 counterexample: at the concrete single-point grid the harmonizer
fails with `IndexError` (from indexing the empty diff of a one-entry
coordinate slice), not the claimed `GridGeometryError`, which no code
defines. -/
theorem harmonizer_short_axis_cex :
    errOf (makeSourceGrid singleW) = some .indexError ∧
    PyErr.indexError ≠ PyErr.gridGeometryError :=
  ⟨rfl, by decide⟩

/-- C9: corrected. On an input whose latitude or longitude axis has fewer
than two entries (so no step can be derived from the first two coordinate
values), the Grid Harmonizer fails — but with a generic `IndexError`, not
`GridGeometryError`: the code defines no such error class. -/
theorem harmonizer_short_axis_error (obj : GriddedSeries)
    (h : obj.lon.length < 2 ∨ obj.lat.length < 2) :
    makeSourceGrid obj = .error .indexError := by
  unfold makeSourceGrid
  rcases hl : obj.lon with _ | ⟨b0, _ | ⟨b1, tb⟩⟩ <;>
    rcases ha : obj.lat with _ | ⟨a0, _ | ⟨a1, ta⟩⟩ <;>
      simp [hl, ha] at h ⊢
  all_goals omega

/-- C9 witness: the corrected statement at the concrete one-point grid. -/
theorem harmonizer_short_axis_error_witness :
    (singleW.lon.length < 2 ∨ singleW.lat.length < 2) ∧
    makeSourceGrid singleW = .error .indexError :=
  ⟨by decide, harmonizer_short_axis_error singleW (by decide)⟩

/-- Mean of a one-element finite list. -/
theorem fpMean_single (q : ℚ) : fpMean [.fin q] = .fin q := by
  rw [fpMean_fin [.fin q] (by simp) (by intro x hx; simp at hx; exact ⟨q, hx⟩)]
  norm_num [Fp.toQ]

/-- C10: confirmed. In the precipitation branch the division by the
training climatology is unguarded: whenever the training climatology is
zero for the calendar month of some time step at some cell, the anomaly
value there is non-finite (an infinity or `nan`) — for every behavior of
the quantile-mapping operator — and no error is raised: the branch is a
total computation (numpy division by zero only warns). -/
theorem pr_branch_zero_climatology_nonfinite (qm : QmOp)
    (o tr pd : GriddedSeries) (t c : ℕ)
    (hz : (monthlyClimatology tr).vals ((qm pd tr o).months.getD t 0) c =
      .fin 0) :
    ((bcsdBranch qm o tr pd "pr").vals t c).isFinite = false := by
  have hbr : (bcsdBranch qm o tr pd "pr").vals t c =
      Fp.div ((qm pd tr o).vals t c)
        ((monthlyClimatology tr).vals ((qm pd tr o).months.getD t 0) c) := by
    simp [bcsdBranch, ratioByMonth]
  rw [hbr, hz]
  exact Fp.div_fin_zero_not_finite _

/-- C10 witness: with an all-zero training series (whose January
climatology is zero) the concrete precipitation-branch anomaly is
non-finite at the first time step and cell. -/
theorem pr_branch_zero_climatology_nonfinite_witness :
    (monthlyClimatology trW).vals ((qmW pdW trW obsW).months.getD 0 0) 0 =
      .fin 0 ∧
    ((bcsdBranch qmW obsW trW pdW "pr").vals 0 0).isFinite = false := by
  have hz : (monthlyClimatology trW).vals
      ((qmW pdW trW obsW).months.getD 0 0) 0 = .fin 0 := by
    show fpMean ((monthIndices trW 1).map (fun t => trW.vals t 0)) = Fp.fin 0
    have h1 : monthIndices trW 1 = [0] := rfl
    rw [h1]
    exact fpMean_single 0
  exact ⟨hz, pr_branch_zero_climatology_nonfinite qmW obsW trW pdW 0 0 hz⟩
